import Mathlib

/-!
Verification of the task registration and dependency-graph workflow of the
audit-workflow app (src/app.py, class AuditWorkflow).

The Python code is shallowly embedded as follows:
* datetimes are natural numbers of seconds since midnight of the proleptic
  Gregorian day 0001-01-01 (Python's ordinal day 1); a parsed due date
  (always midnight, since strptime with format %Y-%m-%d leaves the time
  fields zero) is represented by a `Date` record together with
  `dateSeconds`;
* the networkx DiGraph is a pair of insertion-ordered duplicate-free lists:
  nodes (id paired with an optional label attribute) and directed edges;
* exceptions raised and caught inside `add_task` become an `Option AddError`
  result; the state mutations performed before a raise are kept, exactly as
  in the source (the except-branch does not roll anything back);
* the random source (faker sentences and emails, random.randint,
  random.sample) is an explicit `RandomSource` record of oracle functions;
* Streamlit rendering, SMTP delivery and xlsx serialization are external
  collaborators and are not modelled; for `send_reminder` the guard
  condition on lines 122-124 (the reminder-eligibility predicate) is
  modelled, and for `generate_report` the produced data rows are modelled.
-/

namespace AuditApp

/-! ## Dates (datetime.date / datetime.datetime arithmetic) -/

/-- Gregorian leap year, as in Python's `calendar.isleap`. -/
def isLeap (y : Nat) : Bool :=
  (y % 4 == 0 && y % 100 != 0) || y % 400 == 0

def daysInMonth (y m : Nat) : Nat :=
  if m = 2 then (if isLeap y then 29 else 28)
  else if m = 4 ∨ m = 6 ∨ m = 9 ∨ m = 11 then 30
  else 31

/-- Days in all years strictly before year `y` (proleptic Gregorian),
as in CPython's `_days_before_year`. -/
def daysBeforeYear (y : Nat) : Nat :=
  (y - 1) * 365 + (y - 1) / 4 - (y - 1) / 100 + (y - 1) / 400

/-- Days in year `y` strictly before month `m`. -/
def daysBeforeMonth (y m : Nat) : Nat :=
  ((List.range (m - 1)).map (fun k => daysInMonth y (k + 1))).sum

structure Date where
  year : Nat
  month : Nat
  day : Nat
deriving DecidableEq, Repr, Inhabited

/-- Python's `date.toordinal`: 0001-01-01 is day 1. -/
def dateOrdinal (d : Date) : Nat :=
  daysBeforeYear d.year + daysBeforeMonth d.year d.month + d.day

/-- The datetime produced by `strptime(s, "%Y-%m-%d")`, in seconds: midnight
of the parsed day. -/
def dateSeconds (d : Date) : Nat := dateOrdinal d * 86400

/-- Inverse of `dateOrdinal` (civil-from-days); used to embed
`(now + timedelta(days=k)).strftime("%Y-%m-%d")`. -/
def dateOfOrdinal (n : Nat) : Date :=
  let z := n + 305
  let era := z / 146097
  let doe := z % 146097
  let yoe := (doe - doe / 1460 + doe / 36524 - doe / 146096) / 365
  let y := yoe + era * 400
  let doy := doe - (365 * yoe + yoe / 4 - yoe / 100)
  let mp := (5 * doy + 2) / 153
  let d := doy - (153 * mp + 2) / 5 + 1
  let m := if mp < 10 then mp + 3 else mp - 9
  if m ≤ 2 then ⟨y + 1, m, d⟩ else ⟨y, m, d⟩

/-- `datetime.strptime(due_date, "%Y-%m-%d")` combined with the `datetime`
constructor's range checks: exactly four digits of year, one or two digits
of month (1..12) and day (1..31, further bounded by the month length),
dash separators, no leftover characters, year at least `MINYEAR = 1`.
Returns `none` exactly when the Python call raises `ValueError`. -/
def takeDigits : List Char → List Char × List Char
  | [] => ([], [])
  | c :: cs =>
    if c.isDigit then
      let p := takeDigits cs
      (c :: p.1, p.2)
    else ([], c :: cs)

def digitsToNat (ds : List Char) : Nat :=
  ds.foldl (fun a c => a * 10 + (c.toNat - 48)) 0

def strptimeYmd (s : String) : Option Date :=
  let p1 := takeDigits s.data
  match p1.2 with
  | '-' :: r2 =>
    let p2 := takeDigits r2
    match p2.2 with
    | '-' :: r4 =>
      let p3 := takeDigits r4
      let y := digitsToNat p1.1
      let m := digitsToNat p2.1
      let d := digitsToNat p3.1
      if p3.2 = [] ∧ p1.1.length = 4 ∧
         1 ≤ p2.1.length ∧ p2.1.length ≤ 2 ∧ 1 ≤ p3.1.length ∧ p3.1.length ≤ 2 ∧
         1 ≤ m ∧ m ≤ 12 ∧ 1 ≤ d ∧ d ≤ daysInMonth y m ∧ 1 ≤ y
      then some ⟨y, m, d⟩ else none
    | _ => none
  | _ => none

/-! ## Email validation (`AuditWorkflow.validate_email`, lines 68-70)

The source pattern is `^[a-zA-Z0-9._%+-]+@[a-zAZ0-9.-]+\.[a-zA-Z]{2,}$`.
Note the character class of the domain part: it is `a-z`, the two literal
letters `A` and `Z` (the intended range `A-Z` is missing its dash), digits,
dot and hyphen.  `re.match` anchors at the start, and `$` matches at the end
of the string or just before one trailing newline.  Since `@` belongs to no
class, the regex accepts exactly the strings that decompose as
local `@` domain `.` tld (an existential split, matching the engine's
backtracking). -/

def localChar (c : Char) : Bool :=
  (97 ≤ c.toNat && c.toNat ≤ 122) || (65 ≤ c.toNat && c.toNat ≤ 90) ||
  (48 ≤ c.toNat && c.toNat ≤ 57) ||
  c == '.' || c == '_' || c == '%' || c == '+' || c == '-'

/-- Character class `[a-zAZ0-9.-]` of the source, typo included: the only
uppercase letters admitted are `A` and `Z`. -/
def domainChar (c : Char) : Bool :=
  (97 ≤ c.toNat && c.toNat ≤ 122) || c == 'A' || c == 'Z' ||
  (48 ≤ c.toNat && c.toNat ≤ 57) || c == '.' || c == '-'

def tldChar (c : Char) : Bool :=
  (97 ≤ c.toNat && c.toNat ≤ 122) || (65 ≤ c.toNat && c.toNat ≤ 90)

/-- `[a-zA-Z]{2,}$`: at least two letters, then the end of the string (a
single trailing newline is tolerated by `$`). -/
def tldOk (t : List Char) : Bool :=
  let t2 := if t.getLast? = some (Char.ofNat 10) then t.dropLast else t
  2 ≤ t2.length && t2.all tldChar

/-- `[a-zAZ0-9.-]+\.[a-zA-Z]{2,}$` against the part after the `@`. -/
def domainTailOk (r : List Char) : Bool :=
  (List.range r.length).any fun i =>
    match r.drop i with
    | '.' :: t => !(r.take i).isEmpty && (r.take i).all domainChar && tldOk t
    | _ => false

def validate_email (email : String) : Bool :=
  (List.range email.data.length).any fun i =>
    match email.data.drop i with
    | '@' :: r =>
      !(email.data.take i).isEmpty && (email.data.take i).all localChar && domainTailOk r
    | _ => false

/-! ## Data model -/

inductive Status where
  | Pending
  | Done
deriving DecidableEq, Repr, Inhabited

structure Task where
  id : String
  description : String
  due_date : Date
  dependencies : List String
  assignee_email : String
  status : Status
deriving DecidableEq, Repr, Inhabited

/-- The networkx `DiGraph` used by the app: nodes carry an optional
`label` attribute (`add_node(task_id, label=description)` sets it;
`add_edge` would auto-insert an endpoint without the attribute). -/
structure TaskGraph where
  nodes : List (String × Option String)
  edges : List (String × String)
deriving DecidableEq, Repr, Inhabited

structure AuditWorkflow where
  tasks : List Task
  task_graph : TaskGraph
deriving DecidableEq, Repr, Inhabited

def emptyWorkflow : AuditWorkflow := ⟨[], ⟨[], []⟩⟩

def taskIds (w : AuditWorkflow) : List String := w.tasks.map (·.id)

/-! ## Graph operations (networkx semantics) -/

/-- `G.add_node(id, label=l)`: inserts the node, or updates the label of an
existing node. -/
def addNode (g : TaskGraph) (id label : String) : TaskGraph :=
  if id ∈ g.nodes.map Prod.fst then
    { g with nodes := g.nodes.map (fun p => if p.1 = id then (id, some label) else p) }
  else { g with nodes := g.nodes ++ [(id, some label)] }

/-- `add_edge` auto-inserts missing endpoints (without a label attribute). -/
def ensureNode (g : TaskGraph) (id : String) : TaskGraph :=
  if id ∈ g.nodes.map Prod.fst then g else { g with nodes := g.nodes ++ [(id, none)] }

/-- `G.add_edge(u, v)`: set semantics, duplicate edges are not added. -/
def addEdge (g : TaskGraph) (u v : String) : TaskGraph :=
  let g2 := ensureNode (ensureNode g u) v
  if (u, v) ∈ g2.edges then g2 else { g2 with edges := g2.edges ++ [(u, v)] }

/-! ## `AuditWorkflow.add_task` (lines 72-103) -/

/-- The distinct `ValueError`s raised inside `add_task` (distinguished in the
source only by their message strings). -/
inductive AddError where
  | DuplicateOrEmptyId
  | EmptyDescription
  | InvalidEmail
  | InvalidDateFormat
  | PastDueDate
  | UnknownDependency (dep : String)
deriving DecidableEq, Repr

/-- The dependency loop of lines 93-96: for each dependency in order, raise
(keeping all mutations done so far) if it is not among the previously
registered ids (`self.tasks[:-1]`), otherwise add the edge dep → task. -/
def addDeps (prevIds : List String) (tid : String) : TaskGraph → List String →
    Option AddError × TaskGraph
  | g, [] => (none, g)
  | g, dep :: rest =>
    if dep ∈ prevIds then addDeps prevIds tid (addEdge g dep tid) rest
    else (some (AddError.UnknownDependency dep), g)

/-- `add_task(task_id, description, due_date, dependencies, assignee_email)`.
`now` is the value of `datetime.datetime.now()` at the call, in seconds.
Returns the error (if any) together with the post-call state; note that on
an `UnknownDependency` error the task has already been appended, its node
added and the edges of the dependencies preceding the offending one added,
exactly as in the source. -/
def add_task (w : AuditWorkflow) (now : Nat) (task_id description due_date : String)
    (dependencies : List String) (assignee_email : String) :
    Option AddError × AuditWorkflow :=
  if task_id = "" ∨ task_id ∈ taskIds w then (some AddError.DuplicateOrEmptyId, w)
  else if description = "" then (some AddError.EmptyDescription, w)
  else if validate_email assignee_email = false then (some AddError.InvalidEmail, w)
  else
    match strptimeYmd due_date with
    | none => (some AddError.InvalidDateFormat, w)
    | some d =>
      if dateSeconds d < now then (some AddError.PastDueDate, w)
      else
        let task : Task :=
          { id := task_id, description := description, due_date := d,
            dependencies := dependencies, assignee_email := assignee_email,
            status := Status.Pending }
        let res := addDeps (taskIds w) task_id (addNode w.task_graph task_id description)
          dependencies
        (res.1, { tasks := w.tasks ++ [task], task_graph := res.2 })

/-! ## Reminder eligibility (`AuditWorkflow.send_reminder`, lines 121-147)

Only the pure guard of lines 122-124 is modelled; the SMTP delivery inside
the guard is an external collaborator. -/

/-- `(task['due_date'] - current_date).days`: Python's `timedelta.days` is
the floor of the difference in days, so negative for overdue tasks. -/
def days_until_due (due : Date) (now : Nat) : Int :=
  ((dateSeconds due : Int) - (now : Int)).fdiv 86400

/-- The condition `days_until_due <= 2 and task['status'] == 'Pending'` of
line 124 deciding whether a reminder is sent. -/
def reminderEligible (t : Task) (now : Nat) : Bool :=
  decide (days_until_due t.due_date now ≤ 2) && decide (t.status = Status.Pending)

/-! ## Report rows (`AuditWorkflow.generate_report`, lines 149-166)

The data rows written to the worksheet: one row per task, in the order of
`pd.DataFrame(self.tasks).values`, each cell `str(val)`.  `str` of the
stored datetime renders as `YYYY-MM-DD 00:00:00`; `str` of the dependency
list renders as a Python list literal.  With no tasks the function warns and
returns `None`. -/

def pad2 (n : Nat) : String := if n < 10 then "0" ++ Nat.repr n else Nat.repr n

def pad4 (n : Nat) : String :=
  if n < 10 then "000" ++ Nat.repr n
  else if n < 100 then "00" ++ Nat.repr n
  else if n < 1000 then "0" ++ Nat.repr n
  else Nat.repr n

def pyStrDate (d : Date) : String := pad4 d.year ++ "-" ++ pad2 d.month ++ "-" ++ pad2 d.day

/-- `str(datetime.datetime(y, m, d))`. -/
def pyStrDatetime (d : Date) : String := pyStrDate d ++ " 00:00:00"

def hexDigit (n : Nat) : Char :=
  if n < 10 then Char.ofNat (48 + n) else Char.ofNat (87 + n)

/-- One character of CPython's `repr` of a string, given the chosen quote
character: the quote and the backslash are backslash-escaped, tab, newline
and carriage return become `\t`, `\n`, `\r`, the remaining ASCII control
characters and `0x7f` become lowercase `\xXX`, everything else is kept.
This reproduces `unicode_repr` exactly for code points below `0x80` (and for
printable higher code points); unprintable code points at `0x80` and above,
which CPython escapes according to its Unicode category tables, are kept
verbatim — theorems about report cells therefore restrict dependency ids to
ASCII. -/
def escapeChar (quote : Char) (c : Char) : List Char :=
  if c = quote ∨ c.toNat = 92 then [Char.ofNat 92, c]
  else if c.toNat = 9 then [Char.ofNat 92, 't']
  else if c.toNat = 10 then [Char.ofNat 92, 'n']
  else if c.toNat = 13 then [Char.ofNat 92, 'r']
  else if c.toNat < 32 ∨ c.toNat = 127 then
    [Char.ofNat 92, 'x', hexDigit (c.toNat / 16), hexDigit (c.toNat % 16)]
  else [c]

/-- CPython's `repr` of a string: single quotes by default, switching to
double quotes when the string contains a single quote but no double quote,
each character escaped by `escapeChar`. -/
def pyReprStr (s : String) : String :=
  let squote := s.data.any (fun c => c.toNat = 39)
  let dquote := s.data.any (fun c => c.toNat = 34)
  let quote := if squote && !dquote then Char.ofNat 34 else Char.ofNat 39
  String.mk ((quote :: (s.data.map (escapeChar quote)).flatten) ++ [quote])

/-- `str(list_of_ids)`, e.g. `['T1', 'T2']`: `repr` of each element,
joined by `, ` inside brackets. -/
def pyStrList (l : List String) : String :=
  "[" ++ String.intercalate ", " (l.map pyReprStr) ++ "]"

/-- Cross-checks of `pyReprStr` against CPython's `repr` on the delicate
cases: quote switching for an embedded single quote, backslash doubling,
falling back to an escaped single quote when both quote kinds occur, and
the `\n` and `\xXX` control escapes. -/
theorem pyReprStr_matches_python_examples :
    pyReprStr (String.mk ['a', Char.ofNat 39, 'b']) =
      String.mk [Char.ofNat 34, 'a', Char.ofNat 39, 'b', Char.ofNat 34] ∧
    pyReprStr (String.mk ['a', Char.ofNat 92, 'b']) =
      String.mk [Char.ofNat 39, 'a', Char.ofNat 92, Char.ofNat 92, 'b', Char.ofNat 39] ∧
    pyReprStr (String.mk ['a', Char.ofNat 39, Char.ofNat 34]) =
      String.mk [Char.ofNat 39, 'a', Char.ofNat 92, Char.ofNat 39, Char.ofNat 34,
        Char.ofNat 39] ∧
    pyReprStr (String.mk ['a', Char.ofNat 10]) =
      String.mk [Char.ofNat 39, 'a', Char.ofNat 92, 'n', Char.ofNat 39] ∧
    pyReprStr (String.mk ['a', Char.ofNat 31]) =
      String.mk [Char.ofNat 39, 'a', Char.ofNat 92, 'x', '1', 'f', Char.ofNat 39] := by
  decide

def statusStr : Status → String
  | Status.Pending => "Pending"
  | Status.Done => "Done"

def taskRow (t : Task) : List String :=
  [t.id, t.description, pyStrDatetime t.due_date, pyStrList t.dependencies,
   t.assignee_email, statusStr t.status]

def generate_report (w : AuditWorkflow) : Option (List (List String)) :=
  if w.tasks.isEmpty then none else some (w.tasks.map taskRow)

/-! ## `AuditWorkflow.generate_fake_tasks` (lines 105-119) -/

/-- The random collaborators of the batch generator, as oracles indexed by
the loop counter: `faker.sentence`, `faker.email`, `random.randint(1, 10)`
and the `random.sample` pick out of the offered id list. -/
structure RandomSource where
  descs : Nat → String
  emails : Nat → String
  dayOffsets : Nat → Nat
  depChoice : Nat → List String → List String

/-- Line 107: `[f"T{i+1}" for i in range(len(self.tasks) + 1,
len(self.tasks) + num_tasks + 1)]`. -/
def fakeTaskIds (w : AuditWorkflow) (num_tasks : Nat) : List String :=
  (List.range' (w.tasks.length + 1) num_tasks).map fun i => "T" ++ Nat.repr (i + 1)

/-- One iteration of the loop of lines 108-115; the Boolean returned by
`add_task` is discarded, exactly as in the source. -/
def genItem (now : Nat) (rs : RandomSource) (task_ids : List String)
    (w : AuditWorkflow) (i : Nat) : AuditWorkflow :=
  let task_id := task_ids.getD i ""
  let description := rs.descs i
  let due_date := pyStrDate (dateOfOrdinal (now / 86400 + rs.dayOffsets i))
  let existing_ids := taskIds w ++ task_ids.take i
  let dependencies := rs.depChoice i existing_ids
  let assignee_email := rs.emails i
  (add_task w now task_id description due_date dependencies assignee_email).2

/-- `generate_fake_tasks(num_tasks)`: the id list is computed once from the
task count at entry, the loop registers every item through `add_task`, and
the call returns `True` (nothing inside the loop can raise: `add_task`
catches all exceptions). -/
def generate_fake_tasks (w : AuditWorkflow) (now : Nat) (rs : RandomSource)
    (num_tasks : Nat) : Bool × AuditWorkflow :=
  (true, (List.range num_tasks).foldl (genItem now rs (fakeTaskIds w num_tasks)) w)

/-! ## Operation sequences -/

/-- The two operations that mutate the registry. -/
inductive Op where
  | register (now : Nat) (task_id description due_date : String)
      (dependencies : List String) (assignee_email : String)
  | generate (now : Nat) (rs : RandomSource) (num_tasks : Nat)

def applyOp (w : AuditWorkflow) : Op → AuditWorkflow
  | Op.register now id desc due deps em => (add_task w now id desc due deps em).2
  | Op.generate now rs n => (generate_fake_tasks w now rs n).2

def runOps (w : AuditWorkflow) (ops : List Op) : AuditWorkflow :=
  ops.foldl applyOp w

/-! ## Registration order and acyclicity -/

/-- Index of the first occurrence of `a` in `l` (length of `l` if absent):
the registration position of a task id. -/
def idxIn : List String → String → Nat
  | [], _ => 0
  | x :: xs, a => if x = a then 0 else idxIn xs a + 1

/-- Nonempty directed paths in an edge list. -/
inductive Reaches (es : List (String × String)) : String → String → Prop where
  | step {u v : String} : (u, v) ∈ es → Reaches es u v
  | trans {u v x : String} : Reaches es u v → (v, x) ∈ es → Reaches es u x

/-- The consistency invariant tying the graph to the registry: task ids are
duplicate-free, the node list mirrors the task list (same order, labels are
the descriptions), and every edge joins two registered ids, pointing from an
earlier registration to a strictly later one. -/
def InvHolds (w : AuditWorkflow) : Prop :=
  (taskIds w).Nodup ∧
  w.task_graph.nodes = w.tasks.map (fun t => (t.id, some t.description)) ∧
  ∀ e ∈ w.task_graph.edges, e.1 ∈ taskIds w ∧ e.2 ∈ taskIds w ∧
    idxIn (taskIds w) e.1 < idxIn (taskIds w) e.2

/-! ## Helper lemmas about `idxIn` -/

theorem idxIn_append_left {l : List String} (l2 : List String) {a : String} (h : a ∈ l) :
    idxIn (l ++ l2) a = idxIn l a := by
  induction l with
  | nil => exact absurd h (List.not_mem_nil a)
  | cons x xs ih =>
    by_cases hx : x = a
    · simp [idxIn, hx]
    · have hmem : a ∈ xs := by
        rcases List.mem_cons.mp h with h1 | h1
        · exact absurd h1.symm hx
        · exact h1
      simp [idxIn, hx, ih hmem]

theorem idxIn_append_self {l : List String} {a : String} (h : a ∉ l) :
    idxIn (l ++ [a]) a = l.length := by
  induction l with
  | nil => simp [idxIn]
  | cons x xs ih =>
    have hx : ¬ x = a := by
      intro e
      exact h (by rw [← e]; exact List.mem_cons_self x xs)
    have h2 : a ∉ xs := fun hm => h (List.mem_cons_of_mem x hm)
    simp [idxIn, hx, ih h2]

theorem idxIn_lt_length {l : List String} {a : String} (h : a ∈ l) :
    idxIn l a < l.length := by
  induction l with
  | nil => exact absurd h (List.not_mem_nil a)
  | cons x xs ih =>
    by_cases hx : x = a
    · simp [idxIn, hx]
    · have hmem : a ∈ xs := by
        rcases List.mem_cons.mp h with h1 | h1
        · exact absurd h1.symm hx
        · exact h1
      have := ih hmem
      simp only [idxIn, hx, if_false, List.length_cons]
      omega

/-! ## Helper lemmas about the graph operations -/

theorem ensureNode_edges (g : TaskGraph) (a : String) : (ensureNode g a).edges = g.edges := by
  unfold ensureNode
  split <;> rfl

theorem ensureNode_of_mem {g : TaskGraph} {a : String} (h : a ∈ g.nodes.map Prod.fst) :
    ensureNode g a = g := by
  unfold ensureNode
  simp [h]

theorem addNode_of_not_mem {g : TaskGraph} {id label : String}
    (h : id ∉ g.nodes.map Prod.fst) :
    addNode g id label = { g with nodes := g.nodes ++ [(id, some label)] } := by
  unfold addNode
  simp [h]

theorem addNode_edges (g : TaskGraph) (id label : String) :
    (addNode g id label).edges = g.edges := by
  unfold addNode
  split <;> rfl

theorem addEdge_nodes {g : TaskGraph} {u v : String}
    (hu : u ∈ g.nodes.map Prod.fst) (hv : v ∈ g.nodes.map Prod.fst) :
    (addEdge g u v).nodes = g.nodes := by
  unfold addEdge
  rw [ensureNode_of_mem hu, ensureNode_of_mem hv]
  dsimp only
  split <;> rfl

theorem addEdge_edges (g : TaskGraph) (u v : String) :
    (addEdge g u v).edges =
      if (u, v) ∈ g.edges then g.edges else g.edges ++ [(u, v)] := by
  unfold addEdge
  dsimp only
  have h1 : (ensureNode (ensureNode g u) v).edges = g.edges := by
    rw [ensureNode_edges, ensureNode_edges]
  rw [h1]
  split
  · exact h1
  · rfl

/-! ## Helper lemmas about the dependency loop -/

theorem addDeps_nodes (prev : List String) (tid : String) (deps : List String) :
    ∀ g : TaskGraph, (∀ a ∈ prev, a ∈ g.nodes.map Prod.fst) →
      tid ∈ g.nodes.map Prod.fst → (addDeps prev tid g deps).2.nodes = g.nodes := by
  induction deps with
  | nil => intro g _ _; rfl
  | cons dep rest ih =>
    intro g hp ht
    unfold addDeps
    by_cases hd : dep ∈ prev
    · rw [if_pos hd]
      have hne : (addEdge g dep tid).nodes = g.nodes := addEdge_nodes (hp dep hd) ht
      rw [ih (addEdge g dep tid) (fun a ha => by rw [hne]; exact hp a ha) (by rw [hne]; exact ht)]
      exact hne
    · rw [if_neg hd]

theorem addDeps_edges (prev : List String) (tid : String) (deps : List String) :
    ∀ (g : TaskGraph) (e : String × String), e ∈ (addDeps prev tid g deps).2.edges →
      e ∈ g.edges ∨ (e.1 ∈ prev ∧ e.2 = tid) := by
  induction deps with
  | nil => intro g e he; exact Or.inl he
  | cons dep rest ih =>
    intro g e he
    unfold addDeps at he
    by_cases hd : dep ∈ prev
    · rw [if_pos hd] at he
      rcases ih (addEdge g dep tid) e he with h1 | h1
      · rw [addEdge_edges] at h1
        by_cases hmem : (dep, tid) ∈ g.edges
        · rw [if_pos hmem] at h1
          exact Or.inl h1
        · rw [if_neg hmem] at h1
          rcases List.mem_append.mp h1 with h2 | h2
          · exact Or.inl h2
          · have he2 : e = (dep, tid) := List.mem_singleton.mp h2
            subst he2
            exact Or.inr ⟨hd, rfl⟩
      · exact Or.inr h1
    · rw [if_neg hd] at he
      exact Or.inl he

/-! ## Preservation of the invariant -/

theorem inv_extend (w : AuditWorkflow) (t : Task) (deps : List String)
    (hid : t.id ∉ taskIds w) (h : InvHolds w) :
    InvHolds ⟨w.tasks ++ [t],
      (addDeps (taskIds w) t.id (addNode w.task_graph t.id t.description) deps).2⟩ := by
  obtain ⟨hnd, hnodes, hedges⟩ := h
  have hkeys : w.task_graph.nodes.map Prod.fst = taskIds w := by
    rw [hnodes, List.map_map]
    rfl
  have hidkeys : t.id ∉ w.task_graph.nodes.map Prod.fst := by
    rw [hkeys]; exact hid
  have hAN : (addNode w.task_graph t.id t.description).nodes =
      w.task_graph.nodes ++ [(t.id, some t.description)] := by
    rw [addNode_of_not_mem hidkeys]
  have hANkeys : (addNode w.task_graph t.id t.description).nodes.map Prod.fst =
      taskIds w ++ [t.id] := by
    rw [hAN, List.map_append, hkeys]
    rfl
  have hids : taskIds ⟨w.tasks ++ [t],
      (addDeps (taskIds w) t.id (addNode w.task_graph t.id t.description) deps).2⟩ =
      taskIds w ++ [t.id] := by
    simp [taskIds]
  refine ⟨?_, ?_, ?_⟩
  · -- ids stay duplicate-free
    rw [hids]
    simp only [List.nodup_append, List.nodup_cons, List.not_mem_nil, not_false_iff,
      List.nodup_nil, and_true, true_and]
    exact ⟨hnd, by simpa using hid⟩
  · -- the node list mirrors the extended task list
    have hDN : (addDeps (taskIds w) t.id (addNode w.task_graph t.id t.description) deps).2.nodes =
        (addNode w.task_graph t.id t.description).nodes := by
      refine addDeps_nodes (taskIds w) t.id deps _ ?_ ?_
      · intro a ha
        rw [hANkeys]
        exact List.mem_append_left _ ha
      · rw [hANkeys]
        exact List.mem_append_right _ (List.mem_singleton.mpr rfl)
    show (addDeps (taskIds w) t.id (addNode w.task_graph t.id t.description) deps).2.nodes =
      (w.tasks ++ [t]).map (fun t => (t.id, some t.description))
    rw [hDN, hAN, hnodes, List.map_append]
    rfl
  · -- every edge joins registered ids, earlier one to later one
    intro e he
    rw [hids]
    have he2 := addDeps_edges (taskIds w) t.id deps _ e he
    rw [addNode_edges] at he2
    rcases he2 with hold | hnew
    · obtain ⟨h1, h2, h3⟩ := hedges e hold
      refine ⟨List.mem_append_left _ h1, List.mem_append_left _ h2, ?_⟩
      rw [idxIn_append_left _ h1, idxIn_append_left _ h2]
      exact h3
    · obtain ⟨h1, h2⟩ := hnew
      refine ⟨List.mem_append_left _ h1, ?_, ?_⟩
      · rw [h2]
        exact List.mem_append_right _ (List.mem_singleton.mpr rfl)
      · rw [h2, idxIn_append_left _ h1, idxIn_append_self hid]
        exact idxIn_lt_length h1

/-- Every call of `add_task` — succeeding or failing, including the failing
calls that partially mutate the state — preserves the invariant. -/
theorem add_task_inv (w : AuditWorkflow) (now : Nat) (task_id description due_date : String)
    (dependencies : List String) (assignee_email : String) (h : InvHolds w) :
    InvHolds (add_task w now task_id description due_date dependencies assignee_email).2 := by
  unfold add_task
  by_cases h1 : task_id = "" ∨ task_id ∈ taskIds w
  · rw [if_pos h1]
    exact h
  rw [if_neg h1]
  by_cases h2 : description = ""
  · rw [if_pos h2]
    exact h
  rw [if_neg h2]
  by_cases h3 : validate_email assignee_email = false
  · rw [if_pos h3]
    exact h
  rw [if_neg h3]
  cases hp : strptimeYmd due_date with
  | none => exact h
  | some d =>
    dsimp only
    by_cases h4 : dateSeconds d < now
    · rw [if_pos h4]
      exact h
    rw [if_neg h4]
    dsimp only
    have hid : task_id ∉ taskIds w := fun hm => h1 (Or.inr hm)
    exact inv_extend w
      { id := task_id, description := description, due_date := d,
        dependencies := dependencies, assignee_email := assignee_email,
        status := Status.Pending } dependencies hid h

theorem genItem_inv (now : Nat) (rs : RandomSource) (tids : List String)
    (w : AuditWorkflow) (i : Nat) (h : InvHolds w) : InvHolds (genItem now rs tids w i) :=
  add_task_inv _ _ _ _ _ _ _ h

theorem foldl_genItem_inv (now : Nat) (rs : RandomSource) (tids : List String) :
    ∀ (l : List Nat) (w : AuditWorkflow), InvHolds w →
      InvHolds (l.foldl (genItem now rs tids) w)
  | [], _, h => h
  | i :: l, w, h =>
    foldl_genItem_inv now rs tids l (genItem now rs tids w i) (genItem_inv now rs tids w i h)

theorem generate_fake_tasks_inv (w : AuditWorkflow) (now : Nat) (rs : RandomSource)
    (n : Nat) (h : InvHolds w) : InvHolds (generate_fake_tasks w now rs n).2 :=
  foldl_genItem_inv now rs (fakeTaskIds w n) (List.range n) w h

theorem applyOp_inv (w : AuditWorkflow) (op : Op) (h : InvHolds w) :
    InvHolds (applyOp w op) := by
  cases op with
  | register now id desc due deps em => exact add_task_inv w now id desc due deps em h
  | generate now rs n => exact generate_fake_tasks_inv w now rs n h

theorem inv_empty : InvHolds emptyWorkflow := by
  refine ⟨List.nodup_nil, rfl, ?_⟩
  intro e he
  exact absurd he (List.not_mem_nil e)

theorem runOps_inv (ops : List Op) : InvHolds (runOps emptyWorkflow ops) := by
  have main : ∀ (l : List Op) (w : AuditWorkflow), InvHolds w → InvHolds (runOps w l) := by
    intro l
    induction l with
    | nil => intro w h; exact h
    | cons op l ih =>
      intro w h
      exact ih (applyOp w op) (applyOp_inv w op h)
  exact main ops emptyWorkflow inv_empty

/-! ## From edge ordering to acyclicity -/

theorem rank_lt_of_reaches {es : List (String × String)} {f : String → Nat}
    (hf : ∀ e ∈ es, f e.1 < f e.2) :
    ∀ {u v : String}, Reaches es u v → f u < f v := by
  intro u v h
  induction h with
  | step hmem => exact hf _ hmem
  | trans _ hmem ih => exact Nat.lt_trans ih (hf _ hmem)

theorem no_self_reach {es : List (String × String)} {f : String → Nat}
    (hf : ∀ e ∈ es, f e.1 < f e.2) (v : String) : ¬ Reaches es v v := fun h =>
  Nat.lt_irrefl (f v) (rank_lt_of_reaches hf h)

/-! ## Concrete fixtures used by the claim theorems -/

/-- Midnight of 2026-10-12, as a `datetime.now()` value. -/
def nowOct12 : Nat := dateSeconds ⟨2026, 10, 12⟩

/-- Noon of 2026-10-12, as a `datetime.now()` value. -/
def nowOct12Noon : Nat := dateSeconds ⟨2026, 10, 12⟩ + 43200

/-- Registry holding one task `A`, built by a successful `add_task` call. -/
def wA : AuditWorkflow := (add_task emptyWorkflow nowOct12 "A" "dA" "2026-10-20" [] "a@b.cd").2

/-- The state of a registration of `B` whose dependency list names the known
task `A` and then the unknown id `T9`. -/
def c1run : Option AddError × AuditWorkflow :=
  add_task wA nowOct12 "B" "dB" "2026-10-20" ["A", "T9"] "c@d.ef"

/-! ## Claim theorems -/

/-- Claim C1 (code_bug evidence): a register call that fails dependency
validation with `UnknownDependency` is not atomic.  Starting from a registry
holding only task `A`, registering `B` with dependencies `[A, T9]` fails
with `UnknownDependency T9`, yet afterwards the task list contains `B`, the
graph has a node `B`, and the edge `A → B` has been added: the code appends
the task and mutates the graph before validating the dependencies and does
not roll back. -/
theorem add_task_unknown_dep_mutates_state :
    c1run.1 = some (AddError.UnknownDependency "T9") ∧
    taskIds c1run.2 = ["A", "B"] ∧
    c1run.2.task_graph.nodes.map Prod.fst = ["A", "B"] ∧
    c1run.2.task_graph.edges = [("A", "B")] := by
  decide

/-- Claim C2 (code_bug evidence): with the current time at noon of
2026-10-12, registering a task whose due date is `2026-10-12` (today) fails
with `PastDueDate`, because the code compares the parsed midnight datetime
against `datetime.now()` including the time of day; a due date one day
earlier also fails; and only exactly at midnight does a due date equal to
today pass the check. -/
theorem add_task_due_today_rejected :
    (add_task emptyWorkflow nowOct12Noon "T1" "d" "2026-10-12" [] "a@b.cd").1 =
      some AddError.PastDueDate ∧
    (add_task emptyWorkflow nowOct12Noon "T1" "d" "2026-10-11" [] "a@b.cd").1 =
      some AddError.PastDueDate ∧
    (add_task emptyWorkflow nowOct12 "T1" "d" "2026-10-12" [] "a@b.cd").1 = none := by
  decide

/-- Claim C3 (code_bug evidence): the email pattern accepts lowercase
domains and the uppercase letters `A` and `Z`, but rejects every other
uppercase letter in the domain — the character class `[a-zAZ0-9.-]` of
line 69 is missing the dash of the intended range `A-Z` — contradicting the
claim that any alphanumeric domain (including any uppercase letter) is
accepted. -/
theorem validate_email_uppercase_domain_rejected :
    validate_email "a@b.cd" = true ∧
    validate_email "a@A.cd" = true ∧
    validate_email "a@Z.cd" = true ∧
    validate_email "a@B.cd" = false ∧
    validate_email "a@example.com" = true ∧
    validate_email "a@Example.com" = false := by
  decide

/-- Claim C7: the reminder guard of `send_reminder` is exactly the predicate
`status == Pending and (due_date - now).days <= 2`; in particular it holds
for an overdue pending task (negative day count), fails for a pending task
due in three days, and fails for a done task regardless of due date. -/
theorem reminder_eligible_spec (t : Task) (now : Nat) :
    (reminderEligible t now = true ↔
      (t.status = Status.Pending ∧ days_until_due t.due_date now ≤ 2)) ∧
    (t.status = Status.Pending → days_until_due t.due_date now < 0 →
      reminderEligible t now = true) ∧
    (t.status = Status.Pending → days_until_due t.due_date now = 3 →
      reminderEligible t now = false) ∧
    (t.status = Status.Done → reminderEligible t now = false) := by
  refine ⟨?_, ?_, ?_, ?_⟩
  · simp only [reminderEligible, Bool.and_eq_true, decide_eq_true_eq]
    exact ⟨fun h => ⟨h.2, h.1⟩, fun h => ⟨h.2, h.1⟩⟩
  · intro h1 h2
    simp only [reminderEligible, Bool.and_eq_true, decide_eq_true_eq]
    exact ⟨by omega, h1⟩
  · intro h1 h2
    simp [reminderEligible, h2]
  · intro h1
    simp [reminderEligible, h1]

/-- Witness for C7: a pending task due three days before the evaluation
date is eligible, a pending task due in three days is not, and a done task
due the next day is not. -/
theorem reminder_eligible_spec_witness :
    reminderEligible ⟨"T1", "d", ⟨2026, 10, 9⟩, [], "a@b.cd", Status.Pending⟩ nowOct12 = true ∧
    reminderEligible ⟨"T2", "d", ⟨2026, 10, 15⟩, [], "a@b.cd", Status.Pending⟩ nowOct12 = false ∧
    reminderEligible ⟨"T3", "d", ⟨2026, 10, 13⟩, [], "a@b.cd", Status.Done⟩ nowOct12 = false :=
  ⟨(reminder_eligible_spec _ _).2.1 rfl (by decide),
   (reminder_eligible_spec _ _).2.2.1 rfl (by decide),
   (reminder_eligible_spec _ _).2.2.2 rfl⟩

/-- Claim C8: for every registry state and every id already present, a
second register call with that id — whatever the other arguments are, valid
or not — fails with `DuplicateOrEmptyId` (the first validation rule) and
returns the state completely unchanged: same task list, same graph nodes,
same graph edges. -/
theorem duplicate_id_first_check (w : AuditWorkflow) (now : Nat)
    (task_id description due_date : String) (dependencies : List String)
    (assignee_email : String) (h : task_id ∈ taskIds w) :
    add_task w now task_id description due_date dependencies assignee_email =
      (some AddError.DuplicateOrEmptyId, w) := by
  unfold add_task
  rw [if_pos (Or.inr h)]

/-- Witness for C8: re-registering the id `A` of the one-task registry `wA`
with otherwise-invalid arguments still reports `DuplicateOrEmptyId` and
leaves the registry intact. -/
theorem duplicate_id_first_check_witness :
    add_task wA nowOct12 "A" "" "not-a-date" ["nope"] "not-an-email" =
      (some AddError.DuplicateOrEmptyId, wA) :=
  duplicate_id_first_check wA nowOct12 "A" "" "not-a-date" ["nope"] "not-an-email" (by decide)

/-- A small concrete operation sequence: register `T1`, then `T2` depending
on `T1`. -/
def ops0 : List Op :=
  [Op.register nowOct12 "T1" "d1" "2026-10-20" [] "a@b.cd",
   Op.register nowOct12 "T2" "d2" "2026-10-21" ["T1"] "c@d.ef"]

/-- Claim C9: after every finite sequence of register and batch-generation
calls starting from the empty registry, every graph edge points from a task
registered strictly earlier to one registered strictly later (its source
precedes its target in the registration order), and consequently the
dependency graph has no directed cycle: no vertex reaches itself along a
nonempty edge path. -/
theorem registration_graph_acyclic (ops : List Op) :
    (∀ e ∈ (runOps emptyWorkflow ops).task_graph.edges,
      idxIn (taskIds (runOps emptyWorkflow ops)) e.1 <
        idxIn (taskIds (runOps emptyWorkflow ops)) e.2) ∧
    ∀ v : String, ¬ Reaches (runOps emptyWorkflow ops).task_graph.edges v v := by
  have hedges := (runOps_inv ops).2.2
  refine ⟨fun e he => (hedges e he).2.2, fun v => ?_⟩
  exact no_self_reach (fun e he => (hedges e he).2.2) v

/-- Witness for C9: in the two-task run `ops0` the edge `T1 → T2` respects
the registration order and `T2` does not reach itself. -/
theorem registration_graph_acyclic_witness :
    idxIn (taskIds (runOps emptyWorkflow ops0)) "T1" <
      idxIn (taskIds (runOps emptyWorkflow ops0)) "T2" ∧
    ¬ Reaches (runOps emptyWorkflow ops0).task_graph.edges "T2" "T2" :=
  ⟨(registration_graph_acyclic ops0).1 ("T1", "T2") (by decide),
   (registration_graph_acyclic ops0).2 "T2"⟩

/-- Claim C10: in every state reachable by register and batch-generation
calls — including the register calls that return a failure — the node list
of the graph is exactly the task list projected to (id, label=description),
so the node set is the set of stored ids with each label the task's
description, and both endpoints of every edge are ids of stored tasks. -/
theorem graph_matches_registry (ops : List Op) :
    (runOps emptyWorkflow ops).task_graph.nodes =
      (runOps emptyWorkflow ops).tasks.map (fun t => (t.id, some t.description)) ∧
    ∀ e ∈ (runOps emptyWorkflow ops).task_graph.edges,
      e.1 ∈ taskIds (runOps emptyWorkflow ops) ∧ e.2 ∈ taskIds (runOps emptyWorkflow ops) := by
  obtain ⟨-, hnodes, hedges⟩ := runOps_inv ops
  exact ⟨hnodes, fun e he => ⟨(hedges e he).1, (hedges e he).2.1⟩⟩

/-- Witness for C10: in the run `ops0` the graph nodes mirror the registry
and the endpoints of the edge `T1 → T2` are registered ids. -/
theorem graph_matches_registry_witness :
    (runOps emptyWorkflow ops0).task_graph.nodes =
      (runOps emptyWorkflow ops0).tasks.map (fun t => (t.id, some t.description)) ∧
    ("T1" ∈ taskIds (runOps emptyWorkflow ops0) ∧ "T2" ∈ taskIds (runOps emptyWorkflow ops0)) :=
  ⟨(graph_matches_registry ops0).1, (graph_matches_registry ops0).2 ("T1", "T2") (by decide)⟩

/-! ## Claims about the batch generator and the report -/

/-- A concrete random source: constant description `d`, constant valid
email, day offset 1, never picking dependencies. -/
def rs0 : RandomSource := ⟨fun _ => "d", fun _ => "a@b.cd", fun _ => 1, fun _ _ => []⟩

/-- Registry holding one task `T3`, built by a successful `add_task` call. -/
def wT3 : AuditWorkflow := (add_task emptyWorkflow nowOct12 "T3" "d" "2026-10-20" [] "a@b.cd").2

/-- Registry holding one task `T1`, built by a successful `add_task` call. -/
def wT1 : AuditWorkflow := (add_task emptyWorkflow nowOct12 "T1" "d" "2026-10-20" [] "a@b.cd").2

/-- Counterexample for C4: with one task `T3` stored, a batch of two is
requested; the first synthetic id collides and its registration fails, yet
the whole call returns the single boolean `true` and only the second task is
added — the caller receives no per-item result list (the return value is
identical to a fully successful batch), contrary to the claim. -/
theorem generate_fake_tasks_returns_single_bool :
    (generate_fake_tasks wT3 nowOct12 rs0 2).1 = true ∧
    taskIds (generate_fake_tasks wT3 nowOct12 rs0 2).2 = ["T3", "T4"] := by
  decide

/-- Claim C4 as amended: the batch loop registers every requested item
through `add_task` in order, and a failing item does not abort the remaining
ones (concretely: after the colliding first item of the `wT3` batch, the
second item is still attempted and succeeds) — but the operation only ever
returns the overall boolean `true`, not a per-item result list. -/
theorem generate_fake_tasks_isolation_amended :
    (∀ (w : AuditWorkflow) (now : Nat) (rs : RandomSource) (n : Nat),
      (generate_fake_tasks w now rs n).1 = true ∧
      (generate_fake_tasks w now rs n).2 =
        (List.range n).foldl (genItem now rs (fakeTaskIds w n)) w) ∧
    taskIds ((List.range 2).foldl (genItem nowOct12 rs0 (fakeTaskIds wT3 2)) wT3) =
      ["T3", "T4"] := by
  exact ⟨fun w now rs n => ⟨rfl, rfl⟩, by decide⟩

/-- Counterexample for C5: with the single task `T1` stored (highest numeric
suffix 1), the claim predicts the first synthetic id `T2`; the code computes
`T3` (it starts from the task count plus two), and `T2` is never assigned. -/
theorem fake_task_ids_skip_counterexample :
    fakeTaskIds wT1 1 = ["T3"] ∧
    taskIds (generate_fake_tasks wT1 nowOct12 rs0 1).2 = ["T1", "T3"] ∧
    ("T3" : String) ≠ "T2" := by
  decide

/-- Claim C5 as amended: the batch uses the id list `fakeTaskIds`, whose
`k`-th entry is `T` followed by (number of stored tasks + 2 + k): the first
synthetic id's numeric suffix is the task count plus two — not the highest
existing suffix plus one — and each subsequent id increments by one. -/
theorem fake_task_ids_amended (w : AuditWorkflow) (now : Nat) (rs : RandomSource) (n : Nat) :
    generate_fake_tasks w now rs n =
      (true, (List.range n).foldl (genItem now rs (fakeTaskIds w n)) w) ∧
    fakeTaskIds w n =
      (List.range n).map (fun k => "T" ++ Nat.repr (w.tasks.length + 2 + k)) := by
  refine ⟨rfl, ?_⟩
  unfold fakeTaskIds
  rw [List.range'_eq_map_range, List.map_map]
  refine List.map_congr_left ?_
  intro a _
  have harith : w.tasks.length + 1 + a + 1 = w.tasks.length + 2 + a := by omega
  show "T" ++ Nat.repr (w.tasks.length + 1 + a + 1) = "T" ++ Nat.repr (w.tasks.length + 2 + a)
  rw [harith]

/-- Registry with tasks `T1`, `T2` and a task `T3` depending on both,
built by successful register calls. -/
def wC6 : AuditWorkflow :=
  runOps emptyWorkflow
    [Op.register nowOct12 "T1" "d1" "2026-10-20" [] "a@b.cd",
     Op.register nowOct12 "T2" "d2" "2026-10-20" [] "a@b.cd",
     Op.register nowOct12 "T3" "d3" "2026-10-20" ["T1", "T2"] "a@b.cd"]

/-- Counterexample for C6: in the report row of `T3`, the dependency cell is
the Python list rendering `str(['T1', 'T2'])` — not the comma-joined id list
`T1,T2` — and the due-date cell is `str(datetime)` with a time component —
not an ISO date string. -/
theorem generate_report_cell_format_counterexample :
    (generate_report wC6).map (fun rows => rows.getD 2 []) =
      some ["T3", "d3", "2026-10-20 00:00:00", pyStrList ["T1", "T2"], "a@b.cd", "Pending"] ∧
    pyStrList ["T1", "T2"] ≠ "T1,T2" ∧
    ("2026-10-20 00:00:00" : String) ≠ "2026-10-20" := by
  decide

/-- All dependency ids of all stored tasks consist of code points below
`0x80`: the domain on which `pyReprStr` is provably identical to CPython's
`repr` (see `escapeChar`). -/
def depsAsciiOnly (w : AuditWorkflow) : Prop :=
  ∀ t ∈ w.tasks, ∀ s ∈ t.dependencies, ∀ c ∈ s.data, c.toNat < 128

/-- Claim C6 as amended, for registries whose dependency ids are ASCII (the
domain where the modelled `repr` matches CPython exactly): with no tasks
`generate_report` returns `None` instead of an empty report; otherwise it
deterministically produces one data row per task in registry insertion
order, the row count equals the task count, and the `k`-th row is the
`k`-th task's fields each rendered by Python `str`: id, description, the
due datetime as `YYYY-MM-DD 00:00:00`, the dependency list rendered by
Python's list `repr` (quote-switching and escaping included, not
comma-joined), assignee email and status.  The call never modifies the
registry — it is a pure function of the task list. -/
theorem generate_report_rows_amended (w : AuditWorkflow) (_hascii : depsAsciiOnly w) :
    (w.tasks = [] → generate_report w = none) ∧
    (w.tasks ≠ [] →
      generate_report w = some (w.tasks.map taskRow) ∧
      (w.tasks.map taskRow).length = w.tasks.length ∧
      ∀ k, k < w.tasks.length →
        (w.tasks.map taskRow).getD k [] = taskRow (w.tasks.getD k default)) := by
  refine ⟨fun hnil => by simp [generate_report, hnil], fun h => ?_⟩
  have hne : w.tasks.isEmpty = false := by
    cases hw : w.tasks with
    | nil => exact absurd hw h
    | cons a l => rfl
  refine ⟨by simp [generate_report, hne], List.length_map _ _, ?_⟩
  intro k hk
  have hk2 : k < (w.tasks.map taskRow).length := by
    rw [List.length_map]
    exact hk
  rw [List.getD_eq_getElem _ _ hk2, List.getD_eq_getElem _ _ hk]
  simp

/-- Witness for C6 (amended): the empty registry produces no report, and
the three-task registry `wC6` (whose dependency ids are ASCII) yields the
row list of its task list, its third row being the rendering of its third
task. -/
theorem generate_report_rows_amended_witness :
    generate_report emptyWorkflow = none ∧
    generate_report wC6 = some (wC6.tasks.map taskRow) ∧
    (wC6.tasks.map taskRow).getD 2 [] = taskRow (wC6.tasks.getD 2 default) :=
  ⟨(generate_report_rows_amended emptyWorkflow (by unfold depsAsciiOnly; decide)).1 rfl,
   ((generate_report_rows_amended wC6 (by unfold depsAsciiOnly; decide)).2 (by decide)).1,
   ((generate_report_rows_amended wC6 (by unfold depsAsciiOnly; decide)).2 (by decide)).2.2 2
     (by decide)⟩

end AuditApp
